import Mathlib

/-!
Shallow embedding of the conversation / usage / auth / API layers of the
claude-gui desktop client (TypeScript sources under `src/`), together with
theorems settling the specification claims about them.

Conventions of the embedding:
* JavaScript objects become Lean structures; `Partial<...>` arguments become
  structures of `Option` fields where `none` models an absent key.
* `Date` values are modelled as an abstract tick (`Nat`) where only identity
  matters, and as a calendar triple (`CalDate`) where calendar arithmetic
  matters.  Every operation that calls `new Date()` receives the current
  instant as an explicit argument.
* JavaScript numbers are modelled as `Int` for token counts and as `Rat` for
  dollar costs (the arithmetic performed by the sources on costs is exact on
  the inputs considered, so `Rat` is a faithful model).
* Asynchronous collaborator calls (`window.electronAPI....`) are modelled by
  explicit outcome parameters: an inductive value describing what the awaited
  call returned or threw.  `uuidv4()` results are passed in as explicit
  `String` arguments.
* MobX reactivity (`runInAction`, observability) has no semantic content for
  the claims and is erased; state updates become functional record updates.
-/

/-- JavaScript `a || b` on an optional string: `undefined`/`null` and the
empty string are falsy and fall through to the default. -/

def jsOrStr (o : Option String) (d : String) : String :=
  match o with
  | some s => if s = "" then d else s
  | none => d

/-- JavaScript `a || b` on an optional number: `undefined`/`null` and `0` are
falsy and fall through to the default. -/

def jsOrInt (o : Option Int) (d : Int) : Int :=
  match o with
  | some t => if t = 0 then d else t
  | none => d

/-- JavaScript `String.prototype.trim()`: strip leading and trailing
whitespace.  (Implemented over the character list so that proofs can
evaluate it; Lean's own `String.trim` walks byte positions by well-founded
recursion, which kernel reduction cannot unfold.) -/

def jsTrim (s : String) : String :=
  String.mk (((s.data.dropWhile Char.isWhitespace).reverse.dropWhile
    Char.isWhitespace).reverse)

/-- JavaScript `String.prototype.startsWith(p)`, over character lists for
the same reason as `jsTrim`. -/

def jsStartsWith (s p : String) : Bool := p.data.isPrefixOf s.data

/-- Message roles (`'user' | 'assistant' | 'system'`). -/

inductive Role where
  | user
  | assistant
  | system
deriving DecidableEq, Repr

/-- `Message['metadata']` from `src/models/ConversationModel.ts`.
`renderOptions : Record<string, any>` is modelled as an association list. -/

structure MsgMeta where
  tokens : Int
  model : Option String
  renderOptions : List (String × String)
deriving DecidableEq, Repr

/-- The `Partial<Message['metadata']>` argument of `addMessage`. -/

structure MsgMetaArg where
  tokens : Option Int := none
  model : Option String := none
  renderOptions : Option (List (String × String)) := none
deriving DecidableEq, Repr

/-- `Message` from `src/models/ConversationModel.ts`. -/

structure Message where
  id : String
  role : Role
  content : String
  createdAt : Nat
  metadata : MsgMeta
deriving DecidableEq, Repr

/-- `Conversation['metadata']`. -/

structure ConvMeta where
  model : String
  totalTokens : Int
  favorited : Bool
deriving DecidableEq, Repr

/-- `Conversation` from `src/models/ConversationModel.ts`. -/

structure Conversation where
  id : String
  title : String
  createdAt : Nat
  updatedAt : Nat
  messages : List Message
  tags : List String
  metadata : ConvMeta
deriving DecidableEq, Repr

/-- Outcome of an awaited `window.electronAPI` storage call that returns
`{ success: boolean, error?: string }`: either it resolved with that record,
or the `await` threw (`thrown (some m)` models an `Error` with message `m`,
`thrown none` models a non-`Error` throw). -/

inductive SaveOutcome where
  | res (success : Bool) (error : Option String)
  | thrown (msg : Option String)
deriving DecidableEq, Repr

/-- Observable state of the live (iteration-2) `ConversationModel`. -/

structure ConvState where
  conversations : List Conversation
  activeConversationId : String
  conversationTags : List String
  error : Option String
deriving DecidableEq, Repr

/-- `getConversationById`: `this.conversations.find(c => c.id === id)`. -/

def getConversationById (s : ConvState) (id : String) : Option Conversation :=
  s.conversations.find? (fun c => c.id == id)

/-- `getActiveConversation`: `getConversationById(this.activeConversationId)`. -/

def getActiveConversation (s : ConvState) : Option Conversation :=
  getConversationById s s.activeConversationId

/-- The in-memory half of `saveConversation`: `findIndex` on the conversation
id, replace the first hit, otherwise push. -/

def saveReplace : List Conversation → Conversation → List Conversation
  | [], c => [c]
  | x :: xs, c => if x.id == c.id then c :: xs else x :: saveReplace xs c

/-- `saveConversation` from `src/models/ConversationModel.ts`: stamps
`updatedAt`, replaces (or pushes) the conversation in the in-memory array,
then awaits `window.electronAPI.saveConversation`; a failed or thrown write
only sets `error` and flips the returned boolean (the in-memory mutation is
kept). -/

def saveConversation (s : ConvState) (c : Conversation) (now : Nat)
    (so : SaveOutcome) : Bool × ConvState :=
  let c2 := { c with updatedAt := now }
  let s2 := { s with conversations := saveReplace s.conversations c2 }
  match so with
  | .res true _ => (true, s2)
  | .res false err =>
      (false, { s2 with error := some (jsOrStr err "Failed to save conversation") })
  | .thrown m =>
      (false, { s2 with error := some (m.getD "Unknown error saving conversation") })

/-- `createConversation` from `src/models/ConversationModel.ts`.
`curModel` is the snapshot of `rootStore.apiStore.currentParams.model`,
`newId` the `uuidv4()` result, `now` the `new Date()` instant. -/

def createConversation (s : ConvState) (title : Option String) (curModel : String)
    (newId : String) (now : Nat) (so : SaveOutcome) : Conversation × ConvState :=
  let t := jsOrStr title ("New Conversation " ++ toString (s.conversations.length + 1))
  let nc : Conversation :=
    { id := newId, title := t, createdAt := now, updatedAt := now,
      messages := [], tags := [],
      metadata := { model := curModel, totalTokens := 0, favorited := false } }
  let s2 := { s with conversations := s.conversations ++ [nc],
                     activeConversationId := newId }
  let s3 := (saveConversation s2 nc now so).2
  (nc, s3)

/-- The auto-title rule of `addMessage`: first ~30 characters of the content,
trimmed, with an ellipsis when the content is longer. -/

def mkAutoTitle (content : String) : String :=
  jsTrim (content.take 30) ++ (if 30 < content.length then "..." else "")

/-- `addMessage` from `src/models/ConversationModel.ts`.  Returns the created
message (or `none` when there is no active conversation) and the new state. -/

def addMessage (s : ConvState) (content : String) (role : Role)
    (md : Option MsgMetaArg) (curModel : String) (newMid : String) (now : Nat)
    (so : SaveOutcome) : Option Message × ConvState :=
  match getActiveConversation s with
  | none => (none, { s with error := some "No active conversation" })
  | some c =>
      let msg : Message :=
        { id := newMid, role := role, content := content, createdAt := now,
          metadata :=
            { tokens := jsOrInt (md.bind (·.tokens)) 0,
              model := some (jsOrStr (md.bind (·.model)) curModel),
              renderOptions := (md.bind (·.renderOptions)).getD [] } }
      let msgs2 := c.messages ++ [msg]
      let title2 :=
        if role = Role.user ∧
            (msgs2.filter (fun m => m.role == Role.user)).length = 1 ∧
            jsStartsWith c.title "New Conversation" then
          mkAutoTitle content
        else c.title
      let c2 := { c with
        messages := msgs2, updatedAt := now, title := title2,
        metadata := { c.metadata with
          totalTokens := c.metadata.totalTokens + msg.metadata.tokens } }
      let s2 := (saveConversation s c2 now so).2
      (some msg, s2)

/-- The partial metadata object inside an `updateMessage` update. -/

structure MetaUpdate where
  tokens : Option Int := none
  model : Option String := none
  renderOptions : Option (List (String × String)) := none
deriving DecidableEq, Repr

/-- The `Partial<Omit<Message, 'id'>>` update argument of `updateMessage`.
An `id` field is included to model an update object that carries one at
runtime; the source explicitly reinstates the original id after spreading. -/

structure MsgUpdate where
  id : Option String := none
  role : Option Role := none
  content : Option String := none
  createdAt : Option Nat := none
  metadata : Option MetaUpdate := none
deriving DecidableEq, Repr

/-- The metadata merge `{ ...originalMessage.metadata, ...(updates.metadata || {}) }`. -/

def applyMeta (orig : MsgMeta) (mu : Option MetaUpdate) : MsgMeta :=
  match mu with
  | none => orig
  | some m =>
      { tokens := m.tokens.getD orig.tokens,
        model := match m.model with
          | some v => some v
          | none => orig.model,
        renderOptions := match m.renderOptions with
          | some v => v
          | none => orig.renderOptions }

/-- The message merge of `updateMessage`:
`{ ...originalMessage, ...updates, id: originalMessage.id, metadata: ... }`. -/

def mergeMsg (orig : Message) (u : MsgUpdate) : Message :=
  { id := orig.id,
    role := u.role.getD orig.role,
    content := u.content.getD orig.content,
    createdAt := u.createdAt.getD orig.createdAt,
    metadata := applyMeta orig.metadata u.metadata }

/-- `tokenDifference` of `updateMessage`: set only when the update names
`metadata.tokens`. -/

def tokenDiff (orig : Message) (u : MsgUpdate) : Int :=
  match u.metadata.bind (·.tokens) with
  | some t => t - orig.metadata.tokens
  | none => 0

/-- `findIndex` + in-place replacement of `updateMessage`, as a single pass:
replaces the first message whose id matches and reports the token delta. -/

def updAt : List Message → String → MsgUpdate → Option (List Message × Int)
  | [], _, _ => none
  | m :: ms, mid, u =>
      if m.id == mid then some (mergeMsg m u :: ms, tokenDiff m u)
      else (updAt ms mid u).map (fun p => (m :: p.1, p.2))

/-- `updateMessage` from `src/models/ConversationModel.ts`.  The returned
boolean is the `saveConversation` result, as in the source. -/

def updateMessage (s : ConvState) (mid : String) (u : MsgUpdate) (now : Nat)
    (so : SaveOutcome) : Bool × ConvState :=
  match getActiveConversation s with
  | none => (false, { s with error := some "No active conversation" })
  | some c =>
      match updAt c.messages mid u with
      | none => (false, { s with error := some "Message not found" })
      | some (msgs2, diff) =>
          let c2 := { c with
            messages := msgs2, updatedAt := now,
            metadata := { c.metadata with
              totalTokens := c.metadata.totalTokens + diff } }
          saveConversation s c2 now so

/-- `deleteMessage` from `src/models/ConversationModel.ts`.  The returned
boolean is the `saveConversation` result, as in the source. -/

def deleteMessage (s : ConvState) (mid : String) (now : Nat)
    (so : SaveOutcome) : Bool × ConvState :=
  match getActiveConversation s with
  | none => (false, { s with error := some "No active conversation" })
  | some c =>
      match c.messages.find? (fun m => m.id == mid) with
      | none => (false, { s with error := some "Message not found" })
      | some m =>
          let c2 := { c with
                      messages := c.messages.filter (fun x => !(x.id == mid)),
                      updatedAt := now,
                      metadata := { c.metadata with
                        totalTokens := c.metadata.totalTokens - m.metadata.tokens } }
          saveConversation s c2 now so

/-! ## Operation sequences over the conversation store (for the token invariant) -/

/-- One mutating operation of the conversation store, with the ambient data
each call receives (current model, fresh uuid, `new Date()` instant, storage
outcome). -/

inductive COp where
  | create (title : Option String) (curModel newId : String) (now : Nat) (so : SaveOutcome)
  | add (content : String) (role : Role) (md : Option MsgMetaArg)
      (curModel newMid : String) (now : Nat) (so : SaveOutcome)
  | update (mid : String) (u : MsgUpdate) (now : Nat) (so : SaveOutcome)
  | delete (mid : String) (now : Nat) (so : SaveOutcome)
deriving DecidableEq, Repr

/-- The state transition of one operation (return values dropped). -/

def convStep (s : ConvState) : COp → ConvState
  | .create title curModel newId now so =>
      (createConversation s title curModel newId now so).2
  | .add content role md curModel newMid now so =>
      (addMessage s content role md curModel newMid now so).2
  | .update mid u now so => (updateMessage s mid u now so).2
  | .delete mid now so => (deleteMessage s mid now so).2

/-- Freshness of the uuid an operation consumes: `uuidv4()` never collides
with an id already present.  Only `addMessage` needs this (a colliding
message id could later confuse `deleteMessage`'s filter). -/

def freshOk (s : ConvState) : COp → Bool
  | .add _ _ _ _ newMid _ _ =>
      match getActiveConversation s with
      | some c => !(c.messages.any (fun m => m.id == newMid))
      | none => true
  | _ => true

/-- Run a sequence of operations. -/

def convRun (s : ConvState) : List COp → ConvState
  | [] => s
  | op :: l => convRun (convStep s op) l

/-- Every operation of the sequence consumes a fresh uuid at its point. -/

def stepsWF (s : ConvState) : List COp → Bool
  | [] => true
  | op :: l => freshOk s op && stepsWF (convStep s op) l

/-- Per-conversation well-formedness: message ids are distinct (they are
uuids) and the derived total equals the sum of the message token counts. -/

def ConvInv (c : Conversation) : Prop :=
  (c.messages.map (·.id)).Nodup ∧
    c.metadata.totalTokens = (c.messages.map (·.metadata.tokens)).sum

instance (c : Conversation) : Decidable (ConvInv c) := by
  unfold ConvInv; infer_instance

/-- Store-wide invariant: every conversation is well-formed. -/

def StoreInv (s : ConvState) : Prop := ∀ c ∈ s.conversations, ConvInv c

instance (s : ConvState) : Decidable (StoreInv s) := by
  unfold StoreInv; infer_instance

/-- Concrete inputs for the C8 witness: a one-conversation store whose single
message gets an update that carries a rogue id and a new token count. -/

def c8Msg : Message :=
  { id := "m1", role := Role.user, content := "hi", createdAt := 0,
    metadata := { tokens := 3, model := some "claude-2.1", renderOptions := [] } }

def c8Conv : Conversation :=
  { id := "c1", title := "T", createdAt := 0, updatedAt := 0,
    messages := [c8Msg], tags := [],
    metadata := { model := "claude-2.1", totalTokens := 3, favorited := false } }

def c8State : ConvState :=
  { conversations := [c8Conv], activeConversationId := "c1",
    conversationTags := [], error := none }

def c8Upd : MsgUpdate :=
  { id := some "hijacked-id", content := some "edited",
    metadata := some { tokens := some 7 } }

/-- Concrete inputs for the C9 witness: an empty active conversation receives
a message with the metadata argument omitted entirely. -/

def c9Conv : Conversation :=
  { id := "c1", title := "T", createdAt := 0, updatedAt := 0,
    messages := [], tags := [],
    metadata := { model := "claude-2.1", totalTokens := 0, favorited := false } }

def c9State : ConvState :=
  { conversations := [c9Conv], activeConversationId := "c1",
    conversationTags := [], error := none }

/-! ## Usage ledger: `src/models/TokenUsageModel.ts` -/

/-- A calendar day, standing for the `YYYY-MM-DD` strings the usage code
builds with `toISOString().split('T')[0]` and compares lexicographically;
for well-formed zero-padded date strings that order coincides with the
order on (year, month, day). -/

structure CalDate where
  year : Nat
  month : Nat
  day : Nat
deriving DecidableEq, Repr

/-- `a <= b` on `YYYY-MM-DD` strings. -/

def calLE (a b : CalDate) : Bool :=
  (a.year < b.year) ||
    (a.year == b.year &&
      ((a.month < b.month) || (a.month == b.month && a.day ≤ b.day)))

/-- Gregorian leap-year rule, as implemented by JavaScript `Date`. -/

def isLeap (y : Nat) : Bool :=
  (y % 4 == 0 && !(y % 100 == 0)) || (y % 400 == 0)

/-- `new Date(year, month, 0).getDate()`: the number of days of a month. -/

def daysInMonth (y m : Nat) : Nat :=
  if m = 2 then (if isLeap y then 29 else 28)
  else if m = 4 ∨ m = 6 ∨ m = 9 ∨ m = 11 then 30
  else 31

/-- `UsageRecord` from `src/models/TokenUsageModel.ts`. -/

structure UsageRecord where
  date : CalDate
  model : String
  promptTokens : Int
  completionTokens : Int
  cost : Rat
deriving DecidableEq, Repr

/-- One entry of `usageByModel`. -/

structure ModelUsage where
  promptTokens : Int
  completionTokens : Int
  cost : Rat
deriving DecidableEq, Repr

/-- One entry of `dailyUsage`. -/

structure DailyUsage where
  date : CalDate
  tokens : Int
  cost : Rat
deriving DecidableEq, Repr

/-- `UsageSummary`: the JS record objects become association lists in
insertion order. -/

structure UsageSummary where
  totalPromptTokens : Int
  totalCompletionTokens : Int
  totalCost : Rat
  usageByModel : List (String × ModelUsage)
  dailyUsage : List (CalDate × DailyUsage)
deriving DecidableEq, Repr

/-- `CostEstimate` from `src/models/TokenUsageModel.ts`. -/

structure CostEstimate where
  monthlyProjection : Rat
  currentMonth : Rat
  previousMonth : Rat
deriving DecidableEq, Repr

/-- Observable state of `TokenUsageModel`. -/

structure UsageState where
  usageHistory : List UsageRecord
  currentMonthUsage : UsageSummary
  costEstimate : CostEstimate
  error : Option String
deriving DecidableEq, Repr

/-- The all-zero summary used as initial / reset value. -/

def emptySummary : UsageSummary :=
  { totalPromptTokens := 0, totalCompletionTokens := 0, totalCost := 0,
    usageByModel := [], dailyUsage := [] }

/-- `reset()` / initial state of `TokenUsageModel`. -/

def usageReset : UsageState :=
  { usageHistory := [], currentMonthUsage := emptySummary,
    costEstimate := { monthlyProjection := 0, currentMonth := 0, previousMonth := 0 },
    error := none }

/-- The static price table `modelRates` (USD per 1M tokens, prompt and
completion rates), from `src/models/TokenUsageModel.ts`. -/

def modelRates : List (String × (Rat × Rat)) :=
  [("claude-3-opus-20240229", (15, 75)),
   ("claude-3-sonnet-20240229", (3, 15)),
   ("claude-3-haiku-20240307", (1/4, 5/4)),
   ("claude-2.1", (8, 24)),
   ("claude-2.0", (8, 24)),
   ("claude-instant-1.2", (163/100, 551/100))]

/-- The cost computation of `recordUsage`:
`modelRates[model] || modelRates['claude-3-opus-20240229']`, then
`(promptTokens/1e6)*rates.prompt + (completionTokens/1e6)*rates.completion`. -/

def recordCost (p c : Int) (model : String) : Rat :=
  let rates := (modelRates.lookup model).getD
    ((modelRates.lookup "claude-3-opus-20240229").getD (0, 0))
  let promptCost := (p : Rat) / 1000000 * rates.1
  let completionCost := (c : Rat) / 1000000 * rates.2
  promptCost + completionCost

/-- JS `obj[key]` upsert on `usageByModel` (insertion order preserved,
missing key initialised to zeros). -/

def upsertModelUsage (l : List (String × ModelUsage)) (k : String)
    (p c : Int) (cost : Rat) : List (String × ModelUsage) :=
  match l with
  | [] => [(k, { promptTokens := p, completionTokens := c, cost := cost })]
  | (k2, v) :: rest =>
      if k2 == k then
        (k2, { promptTokens := v.promptTokens + p,
               completionTokens := v.completionTokens + c,
               cost := v.cost + cost }) :: rest
      else (k2, v) :: upsertModelUsage rest k p c cost

/-- JS `obj[key]` upsert on `dailyUsage`. -/

def upsertDailyUsage (l : List (CalDate × DailyUsage)) (d : CalDate)
    (tokens : Int) (cost : Rat) : List (CalDate × DailyUsage) :=
  match l with
  | [] => [(d, { date := d, tokens := tokens, cost := cost })]
  | (d2, v) :: rest =>
      if d2 == d then
        (d2, { v with tokens := v.tokens + tokens, cost := v.cost + cost }) :: rest
      else (d2, v) :: upsertDailyUsage rest d tokens cost

/-- `calculatePreviousMonthCost` from `src/models/TokenUsageModel.ts`:
sums the costs of the records dated inside the previous calendar month
(inclusive string comparison on both bounds). -/

def calculatePreviousMonthCost (s : UsageState) (now : CalDate) : Rat :=
  let py := if now.month = 1 then now.year - 1 else now.year
  let pm := if now.month = 1 then 12 else now.month - 1
  let startD : CalDate := { year := py, month := pm, day := 1 }
  let endD : CalDate := { year := py, month := pm, day := daysInMonth py pm }
  ((s.usageHistory.filter
      (fun r => calLE startD r.date && calLE r.date endD)).map (·.cost)).sum

/-- `updateCostEstimates` from `src/models/TokenUsageModel.ts`: the monthly
projection extrapolates the current month's accumulated cost by
`(cost / daysPassed) * daysInMonth` with `daysPassed = min(getDate(), daysInMonth)`. -/

def updateCostEstimates (s : UsageState) (now : CalDate) : UsageState :=
  let dim := daysInMonth now.year now.month
  let daysPassed := min now.day dim
  let currentMonthCost := s.currentMonthUsage.totalCost
  let monthlyProjection :=
    if daysPassed > 0 then currentMonthCost / (daysPassed : Rat) * (dim : Rat) else 0
  let previousMonthCost := calculatePreviousMonthCost s now
  { s with costEstimate :=
      { monthlyProjection := monthlyProjection,
        currentMonth := currentMonthCost,
        previousMonth := previousMonthCost } }

/-- `saveUsageStats`: the awaited storage write's resolved value is ignored;
only a thrown `await` sets the error field. -/

def saveUsageStats (s : UsageState) (so : SaveOutcome) : UsageState :=
  match so with
  | .res _ _ => s
  | .thrown _ => { s with error := some "Failed to save usage statistics" }

/-- `recordUsage` from `src/models/TokenUsageModel.ts`: computes the cost,
appends a `UsageRecord`, updates the incrementally maintained
`currentMonthUsage` aggregate, recomputes the cost estimates, and triggers a
durable write.  `today` is `new Date()` (both for the record's date string
and for the estimate update). -/

def recordUsage (s : UsageState) (promptTokens completionTokens : Int)
    (model : String) (today : CalDate) (so : SaveOutcome) : UsageState :=
  let totalCost := recordCost promptTokens completionTokens model
  let record : UsageRecord :=
    { date := today, model := model, promptTokens := promptTokens,
      completionTokens := completionTokens, cost := totalCost }
  let cm := s.currentMonthUsage
  let cm2 : UsageSummary :=
    { totalPromptTokens := cm.totalPromptTokens + promptTokens,
      totalCompletionTokens := cm.totalCompletionTokens + completionTokens,
      totalCost := cm.totalCost + totalCost,
      usageByModel :=
        upsertModelUsage cm.usageByModel model promptTokens completionTokens totalCost,
      dailyUsage :=
        upsertDailyUsage cm.dailyUsage today (promptTokens + completionTokens) totalCost }
  let s2 := { s with usageHistory := s.usageHistory ++ [record],
                     currentMonthUsage := cm2 }
  let s3 := updateCostEstimates s2 today
  saveUsageStats s3 so

/-- `getUsageSummary` from `src/models/TokenUsageModel.ts`: pure fold over
the (date/model filtered) record list; the date range defaults to
`1970-01-01 .. 9999-12-31` and an empty model string is falsy, so it
matches every record as an omitted filter does. -/

def getUsageSummary (s : UsageState) (startDate endDate : Option CalDate)
    (model : Option String) : UsageSummary :=
  let start := startDate.getD { year := 1970, month := 1, day := 1 }
  let stop := endDate.getD { year := 9999, month := 12, day := 31 }
  let filtered := s.usageHistory.filter (fun r =>
    (calLE start r.date && calLE r.date stop) &&
    (match model with
     | none => true
     | some m => if m = "" then true else r.model == m))
  filtered.foldl (fun acc r =>
    { totalPromptTokens := acc.totalPromptTokens + r.promptTokens,
      totalCompletionTokens := acc.totalCompletionTokens + r.completionTokens,
      totalCost := acc.totalCost + r.cost,
      usageByModel :=
        upsertModelUsage acc.usageByModel r.model r.promptTokens r.completionTokens r.cost,
      dailyUsage :=
        upsertDailyUsage acc.dailyUsage r.date (r.promptTokens + r.completionTokens) r.cost })
    emptySummary

/-- The previous calendar day (`date.setDate(date.getDate() - 1)`). -/

def prevDay (d : CalDate) : CalDate :=
  if d.day > 1 then { d with day := d.day - 1 }
  else if d.month > 1 then
    { year := d.year, month := d.month - 1, day := daysInMonth d.year (d.month - 1) }
  else { year := d.year - 1, month := 12, day := 31 }

/-- `today` and the `n - 1` days before it, most recent first. -/

def trailingDays : CalDate → Nat → List CalDate
  | _, 0 => []
  | d, n + 1 => d :: trailingDays (prevDay d) n

/-- Modelled from the spec, for comparison with `updateCostEstimates`:
"Cost projection: average cost over the trailing 7 calendar days (counting
only days with at least one record) × 30, as a monthly estimate; if zero
qualifying days, projection is 0."  (This is also the formula of the older
`TokenCounter.costEstimate` in `src/models/TokenCounter.ts`.) -/

def specMonthlyProjection (records : List UsageRecord) (today : CalDate) : Rat :=
  let days := trailingDays today 7
  let qualifying := days.filter (fun d => records.any (fun r => r.date == d))
  if qualifying.length = 0 then 0
  else
    (qualifying.map
        (fun d => ((records.filter (fun r => r.date == d)).map (·.cost)).sum)).sum
      / (qualifying.length : Rat) * 30

/-! ## API dispatcher: `src/models/APIModel.ts` -/

/-- `APIParams` from `src/models/APIModel.ts`. -/

structure APIParams where
  model : String
  temperature : Rat
  max_tokens : Int
  top_p : Rat
  top_k : Option Int := none
  stop_sequences : Option (List String) := none
  system : Option String := none
  stream : Option Bool := none
deriving DecidableEq, Repr

/-- The `Partial<APIParams>` override argument of `sendPrompt`. -/

structure APIParamsPartial where
  model : Option String := none
  temperature : Option Rat := none
  max_tokens : Option Int := none
  top_p : Option Rat := none
  top_k : Option Int := none
  stop_sequences : Option (List String) := none
  system : Option String := none
  stream : Option Bool := none
deriving DecidableEq, Repr

/-- The spread merge `{ ...this.currentParams, ...params }`: keys present in
the override win. -/

def mergeParams (base : APIParams) (p : Option APIParamsPartial) : APIParams :=
  match p with
  | none => base
  | some o =>
      { model := o.model.getD base.model,
        temperature := o.temperature.getD base.temperature,
        max_tokens := o.max_tokens.getD base.max_tokens,
        top_p := o.top_p.getD base.top_p,
        top_k := match o.top_k with | some v => some v | none => base.top_k,
        stop_sequences :=
          match o.stop_sequences with | some v => some v | none => base.stop_sequences,
        system := match o.system with | some v => some v | none => base.system,
        stream := match o.stream with | some v => some v | none => base.stream }

/-- The normalized `usage` block of `APIResponse`. -/

structure APIUsage where
  inputTokens : Int
  outputTokens : Int
deriving DecidableEq, Repr

/-- `APIResponse` from `src/models/APIModel.ts` (the normalized reply). -/

structure APIResponse where
  id : String
  type : String
  role : String
  content : String
  model : String
  stopReason : Option String
  stopSequence : Option String
  usage : APIUsage
deriving DecidableEq, Repr

/-- One element of the raw reply's `content` array. -/

structure RawContent where
  type : String
  text : String
deriving DecidableEq, Repr

/-- The raw reply's `usage` block (`input_tokens` / `output_tokens`). -/

structure RawUsage where
  input_tokens : Int
  output_tokens : Int
deriving DecidableEq, Repr

/-- The raw JSON reply forwarded by the main process; `content` and `usage`
are optional to model malformed replies. -/

structure RawResponse where
  id : String
  type : String
  content : Option (List RawContent)
  model : String
  stop_reason : Option String
  stop_sequence : Option String
  usage : Option RawUsage
deriving DecidableEq, Repr

/-- Outcome of `await window.electronAPI.getApiKey(...)`: a resolved value
(`none` models `null`/`undefined`) or a throw. -/

inductive KeyOutcome where
  | ok (key : Option String)
  | thrown (msg : Option String)
deriving DecidableEq, Repr

/-- Outcome of `await window.electronAPI.sendPrompt(apiKey, payload)`:
the resolved `{ success, error?, data? }` record or a throw. -/

inductive SendOutcome where
  | res (success : Bool) (error : Option String) (data : Option RawResponse)
  | thrown (msg : Option String)
deriving DecidableEq, Repr

/-- Observable state of `APIModel` (the abort handle carries no claim-visible
data and is omitted). -/

structure APIState where
  isLoading : Bool
  lastResponse : Option APIResponse
  currentParams : APIParams
  error : Option String
deriving DecidableEq, Repr

/-- One `usageStore.recordUsage(input, output, model)` call issued by the
dispatcher. -/

structure UsageCall where
  inputTokens : Int
  outputTokens : Int
  model : String
deriving DecidableEq, Repr

/-- `error instanceof Error ? error.message : 'Unknown error'`. -/

def jsErrMsg (m : Option String) : String := m.getD "Unknown error"

/-- The message of the TypeError raised by reading a property of `undefined`. -/

def typeErrorUndefined (prop : String) : String :=
  "Cannot read properties of undefined (reading " ++ prop ++ ")"

/-- `sendPrompt` from `src/models/APIModel.ts`.  Returns the normalized
response (or `none`), the new model state, and the `recordUsage` calls made.
The entire body sits in a `try/catch` whose `catch` stores the message and
returns `null`; the embedding mirrors each throwing site. -/

def sendPrompt (s : APIState) (prompt : String) (params : Option APIParamsPartial)
    (keyOut : KeyOutcome) (sendOut : SendOutcome) :
    Option APIResponse × APIState × List UsageCall :=
  let s0 := { s with isLoading := true, error := none }
  let requestParams := mergeParams s.currentParams params
  let fail := fun (msg : String) (calls : List UsageCall) =>
    ((none : Option APIResponse),
     { s0 with error := some msg, isLoading := false }, calls)
  match keyOut with
  | .thrown m => fail (jsErrMsg m) []
  | .ok key =>
      if key.getD "" = "" then fail "No API key available" []
      else
        match sendOut with
        | .thrown m => fail (jsErrMsg m) []
        | .res success err data =>
            if success = false then fail (jsOrStr err "API request failed") []
            else
              match data with
              | none => fail (typeErrorUndefined "usage") []
              | some r =>
                  let calls :=
                    match r.usage with
                    | some u => [UsageCall.mk u.input_tokens u.output_tokens requestParams.model]
                    | none => []
                  match r.content, r.usage with
                  | none, _ => fail (typeErrorUndefined "0") calls
                  | some [], _ => fail (typeErrorUndefined "type") calls
                  | some (c0 :: _), none => fail (typeErrorUndefined "input_tokens") calls
                  | some (c0 :: _), some u =>
                      let formatted : APIResponse :=
                        { id := r.id, type := r.type, role := c0.type,
                          content := c0.text, model := r.model,
                          stopReason := r.stop_reason, stopSequence := r.stop_sequence,
                          usage := { inputTokens := u.input_tokens,
                                     outputTokens := u.output_tokens } }
                      (some formatted,
                       { s0 with lastResponse := some formatted, isLoading := false },
                       calls)

/-! ## Credential store: `src/models/AuthenticationModel.ts` -/

/-- `AuthProfile` from `src/models/AuthenticationModel.ts`. -/

structure AuthProfile where
  id : String
  name : String
  keyLastDigits : String
  created : Nat
  lastUsed : Nat
deriving DecidableEq, Repr

/-- Observable state of `AuthenticationModel`. -/

structure AuthState where
  isAuthenticated : Bool
  isAuthenticating : Bool
  authProfiles : List AuthProfile
  activeProfileId : String
  error : Option String
deriving DecidableEq, Repr

/-- Whether a storage call resolved with `success: true`. -/

def isSuccess : SaveOutcome → Bool
  | .res true _ => true
  | _ => false

/-- `deleteProfile` from `src/models/AuthenticationModel.ts`.  `out1` is the
outcome of the `setSetting('auth.keys.<id>', null)` delete, `out2` of the
follow-up `setSetting('auth.activeProfileId', ...)` write (whose resolved
value the source ignores; only a throw reaches the catch).  On a failed or
thrown delete the profile list, active id and authenticated flag are left
untouched; the in-memory removal happens only in the `result.success`
branch. -/

def deleteProfile (s : AuthState) (profileId : String) (out1 out2 : SaveOutcome) :
    Bool × AuthState :=
  match out1 with
  | .thrown m =>
      (false, { s with error := some (m.getD "Unknown error deleting profile") })
  | .res false err =>
      (false, { s with error := some (jsOrStr err "Failed to delete profile") })
  | .res true _ =>
      let profiles2 := s.authProfiles.filter (fun p => !(p.id == profileId))
      let active2 :=
        if s.activeProfileId == profileId then
          match profiles2 with
          | [] => ""
          | p :: _ => p.id
        else s.activeProfileId
      let auth2 :=
        if s.activeProfileId == profileId then !profiles2.isEmpty
        else s.isAuthenticated
      let s2 := { s with authProfiles := profiles2, activeProfileId := active2,
                         isAuthenticated := auth2 }
      if active2 ≠ profileId then
        match out2 with
        | .thrown m =>
            (false, { s2 with error := some (m.getD "Unknown error deleting profile") })
        | .res _ _ => (true, s2)
      else (true, s2)

/-! ## Renderer orchestration: `src/renderer/components/views/PromptView.tsx` -/

/-- One Chakra toast surfaced to the user. -/

structure Toast where
  title : String
  description : String
  status : String
deriving DecidableEq, Repr

/-- The stores `handleSubmit` touches (`useStore()` gives it the root store;
of `authStore` only `isAuthenticated` is read). -/

structure RootState where
  conv : ConvState
  api : APIState
  authIsAuthenticated : Bool
deriving DecidableEq, Repr

/-- Ambient data consumed by one `handleSubmit` run: fresh uuids, the
`new Date()` instant, and the outcomes of the awaited collaborator calls. -/

structure SubmitCtx where
  newConvId : String
  userMsgId : String
  asstMsgId : String
  keyOut : KeyOutcome
  sendOut : SendOutcome
  saveCreate : SaveOutcome
  saveUser : SaveOutcome
  saveAsst : SaveOutcome
  now : Nat
deriving DecidableEq, Repr

/-- The component's token estimate `Math.ceil(prompt.length / 4)`. -/

def promptTokenEstimate (prompt : String) : Int :=
  ((prompt.length + 3) / 4 : Nat)

/-- `handleSubmit` from `src/renderer/components/views/PromptView.tsx`:
guards (empty prompt, unauthenticated), get-or-create the active
conversation, append the user message, call the dispatcher, then either
append the assistant message or surface `apiStore.error` as a toast.
Returns the new stores and the toasts raised.  (Clearing the prompt text is
component-local state and not modelled.) -/

def handleSubmit (rs : RootState) (prompt : String) (ctx : SubmitCtx) :
    RootState × List Toast :=
  if jsTrim prompt = "" then
    (rs, [{ title := "Empty prompt",
            description := "Please enter a prompt before submitting",
            status := "warning" }])
  else if rs.authIsAuthenticated = false then
    (rs, [{ title := "Not authenticated",
            description := "Please add your API key first",
            status := "error" }])
  else
    let conv1 :=
      match getActiveConversation rs.conv with
      | some _ => rs.conv
      | none =>
          (createConversation rs.conv none rs.api.currentParams.model
            ctx.newConvId ctx.now ctx.saveCreate).2
    let conv2 :=
      (addMessage conv1 prompt Role.user
        (some { tokens := some (promptTokenEstimate prompt) })
        rs.api.currentParams.model ctx.userMsgId ctx.now ctx.saveUser).2
    let sendRes := sendPrompt rs.api prompt none ctx.keyOut ctx.sendOut
    let api2 := sendRes.2.1
    match sendRes.1 with
    | some response =>
        let conv3 :=
          (addMessage conv2 response.content Role.assistant
            (some { tokens := some response.usage.outputTokens,
                    model := some response.model })
            api2.currentParams.model ctx.asstMsgId ctx.now ctx.saveAsst).2
        ({ conv := conv3, api := api2,
           authIsAuthenticated := rs.authIsAuthenticated }, [])
    | none =>
        match api2.error with
        | some e =>
            if e = "" then
              ({ conv := conv2, api := api2,
                 authIsAuthenticated := rs.authIsAuthenticated }, [])
            else
              ({ conv := conv2, api := api2,
                 authIsAuthenticated := rs.authIsAuthenticated },
               [{ title := "API Error", description := e, status := "error" }])
        | none =>
            ({ conv := conv2, api := api2,
               authIsAuthenticated := rs.authIsAuthenticated }, [])

/-! ## Controller orchestration: `src/controllers/ConversationController.ts`

The controller drives the iteration-1 `ConversationModel` (the first
iteration kept at the top of `src/models/ConversationModel.ts`, whose
`addMessage(role, content, metadata)` signature the controller calls) and
the iteration-1 `TokenCounter`. -/

/-- Observable state of the iteration-1 `ConversationModel`
(`activeConversationId : string | null`). -/

structure I1State where
  conversations : List Conversation
  activeConversationId : Option String
  error : Option String
deriving DecidableEq, Repr

/-- The iteration-1 `activeConversation` computed getter:
`if (!this.activeConversationId) return null` (the empty string is falsy),
then `find(...) || null`. -/

def i1Active (s : I1State) : Option Conversation :=
  match s.activeConversationId with
  | none => none
  | some aid =>
      if aid = "" then none
      else s.conversations.find? (fun c => c.id == aid)

/-- Replace the first conversation with a matching id (`findIndex` +
assignment); `none` when the id is absent. -/

def i1Replace : List Conversation → Conversation → Option (List Conversation)
  | [], _ => none
  | x :: xs, c =>
      if x.id == c.id then some (c :: xs)
      else (i1Replace xs c).map (fun l => x :: l)

/-- The iteration-1 `updateConversation`: stamps `updatedAt`, replaces the
conversation in the array (setting the error string when the id is unknown),
and writes through to the synchronous store (whose failure only sets the
error string and is not modelled further). -/

def i1UpdateConversation (s : I1State) (conv : Conversation) (now : Nat) : I1State :=
  let c2 := { conv with updatedAt := now }
  match i1Replace s.conversations c2 with
  | some l => { s with conversations := l }
  | none => { s with error := some ("Conversation not found: " ++ conv.id) }

/-- The iteration-1 `addMessage(role, content, metadata)`: appends to the
active conversation, adds `metadata.tokens` to the total, adopts a truthy
`metadata.model`, and stores the conversation. -/

def i1AddMessage (s : I1State) (role : Role) (content : String) (md : MsgMeta)
    (newMid : String) (now : Nat) : Option Message × I1State :=
  match i1Active s with
  | none => (none, { s with error := some "No active conversation" })
  | some c =>
      let msg : Message :=
        { id := newMid, role := role, content := content, createdAt := now,
          metadata := md }
      let c2 := { c with
        messages := c.messages ++ [msg], updatedAt := now,
        metadata := { c.metadata with
          totalTokens := c.metadata.totalTokens + md.tokens,
          model := jsOrStr md.model c.metadata.model } }
      (some msg, i1UpdateConversation s c2 now)

/-- `SettingsModel.apiConfig`, as read by `submitPrompt`. -/

structure ApiConfig where
  defaultModel : String
  temperature : Rat
  maxTokens : Int
  topP : Rat
  systemPrompt : String
  customStopSequences : List String
deriving DecidableEq, Repr

/-- The dispatcher reply shape `submitPrompt` consumes
(`response.content`, `response.model`, `response.usage.*`). -/

structure CResponse where
  content : String
  model : String
  usageInputTokens : Int
  usageOutputTokens : Int
deriving DecidableEq, Repr

/-- Observable state of `ConversationController`. -/

structure CCState where
  conv : I1State
  isLoading : Bool
  error : Option String
deriving DecidableEq, Repr

/-- `TokenCounter.estimateTokenCount`: `Math.ceil(text.length / 4)`. -/

def estimateTokenCount (text : String) : Int :=
  ((text.length + 3) / 4 : Nat)

/-- The `renderOptions` literal attached to assistant messages. -/

def assistantRenderOptions : List (String × String) :=
  [("codeHighlighting", "true"), ("formatLinks", "true"), ("formatTables", "true")]

/-- The `catch` block of `ConversationController.submitPrompt`: store
`Error: <msg>` in the controller error field and, when an active conversation
exists, append a `system`-role message carrying the same text (tokens 0);
the `finally` clears `isLoading`. -/

def ccCatch (s : CCState) (errorMsg : String) (errMid : String) (now : Nat) : CCState :=
  let text := "Error: " ++ errorMsg
  let conv2 :=
    match i1Active s.conv with
    | some _ =>
        (i1AddMessage s.conv Role.system text
          { tokens := 0, model := none, renderOptions := [] } errMid now).2
    | none => s.conv
  { conv := conv2, isLoading := false, error := some text }

/-- `submitPrompt` from `src/controllers/ConversationController.ts`.
`dispatcherResult` is what `apiClient.sendPrompt` resolved to (`none` for a
failed send — the client returns `null` on any failure and never throws).
Returns the new controller state and the `tokenCounter.recordUsage` calls. -/

def ccSubmitPrompt (s : CCState) (promptText : String) (cfg : ApiConfig)
    (dispatcherResult : Option CResponse) (userMid asstMid errMid : String)
    (now : Nat) : CCState × List UsageCall :=
  if jsTrim promptText = "" then (s, [])
  else
    let s1 : CCState := { s with isLoading := true, error := none }
    let tok := estimateTokenCount promptText
    let addUser := i1AddMessage s1.conv Role.user promptText
      { tokens := tok, model := some cfg.defaultModel, renderOptions := [] }
      userMid now
    match addUser.1 with
    | none =>
        (ccCatch { s1 with conv := addUser.2 }
          "Failed to add user message to conversation" errMid now, [])
    | some _ =>
        match dispatcherResult with
        | none =>
            (ccCatch { s1 with conv := addUser.2 }
              "No response from Claude API" errMid now, [])
        | some resp =>
            let addAsst := i1AddMessage addUser.2 Role.assistant resp.content
              { tokens := resp.usageOutputTokens, model := some resp.model,
                renderOptions := assistantRenderOptions } asstMid now
            match addAsst.1 with
            | none =>
                (ccCatch { s1 with conv := addAsst.2 }
                  "Failed to add assistant message to conversation" errMid now, [])
            | some _ =>
                ({ conv := addAsst.2, isLoading := false, error := none },
                 [{ inputTokens := resp.usageInputTokens,
                    outputTokens := resp.usageOutputTokens, model := resp.model }])

/-- Concrete inputs for the C3 counterexample: an authenticated user submits
"Hello" into an existing active conversation while the transport reports a
failed request. -/

def c3Conv : Conversation :=
  { id := "c1", title := "Chat", createdAt := 0, updatedAt := 0,
    messages := [], tags := [],
    metadata := { model := "claude-3-opus-20240229", totalTokens := 0,
                  favorited := false } }

def c3Root : RootState :=
  { conv := { conversations := [c3Conv], activeConversationId := "c1",
              conversationTags := [], error := none },
    api := { isLoading := false, lastResponse := none,
             currentParams := { model := "claude-3-opus-20240229",
                                temperature := 7/10, max_tokens := 4096,
                                top_p := 9/10 },
             error := none },
    authIsAuthenticated := true }

def c3Ctx : SubmitCtx :=
  { newConvId := "cNew", userMsgId := "mU", asstMsgId := "mA",
    keyOut := .ok (some "sk-abc"),
    sendOut := .res false (some "rate limited") none,
    saveCreate := .res true none, saveUser := .res true none,
    saveAsst := .res true none, now := 1 }

/-- Concrete inputs for the C3 amended-claim witness: the controller submits
"Hello" into an existing active conversation and the dispatcher fails. -/

def c3CConv : Conversation :=
  { id := "c1", title := "Chat", createdAt := 0, updatedAt := 0,
    messages := [], tags := [],
    metadata := { model := "claude-3-opus-20240229", totalTokens := 0,
                  favorited := false } }

def c3CC : CCState :=
  { conv := { conversations := [c3CConv], activeConversationId := some "c1",
              error := none },
    isLoading := false, error := none }

def c3Cfg : ApiConfig :=
  { defaultModel := "claude-3-opus-20240229", temperature := 1, maxTokens := 4096,
    topP := 1, systemPrompt := "", customStopSequences := [] }

/-! ## Supporting lemmas -/

theorem mem_saveReplace {l : List Conversation} {c x : Conversation} :
    x ∈ saveReplace l c → x = c ∨ x ∈ l := by
  induction l with
  | nil => intro h; simpa [saveReplace] using h
  | cons y ys ih =>
      intro h
      by_cases hy : (y.id == c.id) = true
      · simp only [saveReplace, hy, if_pos, List.mem_cons] at h
        rcases h with h | h
        · exact Or.inl h
        · exact Or.inr (List.mem_cons_of_mem _ h)
      · simp only [Bool.not_eq_true] at hy
        simp only [saveReplace, hy, Bool.false_eq_true, if_false, List.mem_cons] at h
        rcases h with h | h
        · exact Or.inr (by simp [h])
        · rcases ih h with h2 | h2
          · exact Or.inl h2
          · exact Or.inr (List.mem_cons_of_mem _ h2)

theorem find?_saveReplace {l : List Conversation} {c c2 : Conversation}
    {aid : String} (hid : c2.id = c.id)
    (h : l.find? (fun x => x.id == aid) = some c) :
    (saveReplace l c2).find? (fun x => x.id == aid) = some c2 := by
  induction l with
  | nil => simp [List.find?] at h
  | cons y ys ih =>
      by_cases hy : (y.id == aid) = true
      · have hc : y = c := by
          simp only [List.find?_cons, hy] at h
          exact Option.some.inj h
        have hcc : (y.id == c2.id) = true := by
          rw [hid, ← hc]; simp
        have hc2 : (c2.id == aid) = true := by
          rw [hid, ← hc]; exact hy
        simp [saveReplace, hcc, List.find?_cons, hc2]
      · simp only [Bool.not_eq_true] at hy
        simp only [List.find?_cons, hy] at h
        have hcaid := List.find?_some h
        have hne : (y.id == c2.id) = false := by
          rw [hid]
          by_contra hcon
          simp only [Bool.not_eq_false, beq_iff_eq] at hcon
          rw [hcon] at hy
          simp [hcaid] at hy
        simp only [saveReplace, hne, Bool.false_eq_true, if_false]
        simp only [List.find?_cons, hy]
        exact ih h

theorem find?_filter_not (msgs : List Message) (mid : String) :
    (msgs.filter (fun x => !(x.id == mid))).find? (fun m => m.id == mid) = none := by
  rw [List.find?_eq_none]
  intro x hx
  have := (List.mem_filter.mp hx).2
  simpa using this

theorem mergeMsg_id (m : Message) (u : MsgUpdate) : (mergeMsg m u).id = m.id := rfl

theorem mergeMsg_tokens (m : Message) (u : MsgUpdate) :
    (mergeMsg m u).metadata.tokens = m.metadata.tokens + tokenDiff m u := by
  cases hu : u.metadata with
  | none => simp [mergeMsg, applyMeta, tokenDiff, hu]
  | some mu =>
      cases ht : mu.tokens with
      | none => simp [mergeMsg, applyMeta, tokenDiff, hu, ht]
      | some t =>
          simp only [mergeMsg, applyMeta, tokenDiff, hu, ht, Option.some_bind,
            Option.getD_some]
          omega

theorem updAt_ids {msgs : List Message} {mid : String} {u : MsgUpdate}
    {msgs2 : List Message} {d : Int} :
    updAt msgs mid u = some (msgs2, d) → msgs2.map (·.id) = msgs.map (·.id) := by
  induction msgs generalizing msgs2 d with
  | nil => intro h; simp [updAt] at h
  | cons m ms ih =>
      intro h
      by_cases hm : (m.id == mid) = true
      · simp only [updAt, hm, if_pos, Option.some.injEq, Prod.mk.injEq] at h
        obtain ⟨h1, _⟩ := h
        rw [← h1]
        simp [mergeMsg_id]
      · simp only [Bool.not_eq_true] at hm
        simp only [updAt, hm, Bool.false_eq_true, if_false, Option.map_eq_some'] at h
        obtain ⟨p, hp, h2⟩ := h
        obtain ⟨h21, _⟩ := Prod.mk.injEq .. |>.mp h2
        rw [← h21]
        simp only [List.map_cons]
        rw [ih hp]

theorem updAt_sum {msgs : List Message} {mid : String} {u : MsgUpdate}
    {msgs2 : List Message} {d : Int} :
    updAt msgs mid u = some (msgs2, d) →
    (msgs2.map (·.metadata.tokens)).sum = (msgs.map (·.metadata.tokens)).sum + d := by
  induction msgs generalizing msgs2 d with
  | nil => intro h; simp [updAt] at h
  | cons m ms ih =>
      intro h
      by_cases hm : (m.id == mid) = true
      · simp only [updAt, hm, if_pos, Option.some.injEq, Prod.mk.injEq] at h
        obtain ⟨h1, h2⟩ := h
        rw [← h1, ← h2]
        simp only [List.map_cons, List.sum_cons, mergeMsg_tokens]
        omega
      · simp only [Bool.not_eq_true] at hm
        simp only [updAt, hm, Bool.false_eq_true, if_false, Option.map_eq_some'] at h
        obtain ⟨p, hp, h2⟩ := h
        obtain ⟨h21, h22⟩ := Prod.mk.injEq .. |>.mp h2
        rw [← h21, ← h22]
        simp only [List.map_cons, List.sum_cons]
        rw [ih hp]
        omega

theorem delete_sum {msgs : List Message} {mid : String} {m : Message}
    (hnd : (msgs.map (·.id)).Nodup)
    (h : msgs.find? (fun x => x.id == mid) = some m) :
    ((msgs.filter (fun x => !(x.id == mid))).map (·.metadata.tokens)).sum
      = (msgs.map (·.metadata.tokens)).sum - m.metadata.tokens := by
  induction msgs with
  | nil => simp [List.find?] at h
  | cons y ys ih =>
      by_cases hy : (y.id == mid) = true
      · have hm : y = m := by
          simp only [List.find?_cons, hy] at h
          exact Option.some.inj h
        have hyid : y.id = mid := by simpa using hy
        have hnotin : ∀ x ∈ ys, (x.id == mid) = false := by
          intro x hx
          have hni : y.id ∉ ys.map (·.id) := (List.nodup_cons.mp (by simpa using hnd)).1
          by_contra hcon
          simp only [Bool.not_eq_false, beq_iff_eq] at hcon
          exact hni (by
            rw [hyid, ← hcon]
            exact List.mem_map_of_mem _ hx)
        have hfil : ys.filter (fun x => !(x.id == mid)) = ys :=
          List.filter_eq_self.mpr (fun a ha => by simp [hnotin a ha])
        simp only [List.filter_cons, hy, Bool.not_true, Bool.false_eq_true, if_false, hfil]
        simp only [List.map_cons, List.sum_cons, hm]
        omega
      · simp only [Bool.not_eq_true] at hy
        simp only [List.find?_cons, hy] at h
        have hnd2 : (ys.map (·.id)).Nodup := (List.nodup_cons.mp (by simpa using hnd)).2
        simp only [List.filter_cons, hy, Bool.not_false, if_pos]
        simp only [List.map_cons, List.sum_cons]
        rw [ih hnd2 h]
        omega

theorem delete_nodup {msgs : List Message} (hnd : (msgs.map (·.id)).Nodup) (mid : String) :
    ((msgs.filter (fun x => !(x.id == mid))).map (·.id)).Nodup :=
  ((List.filter_sublist msgs).map (·.id)).nodup hnd

theorem saveConversation_conversations (s : ConvState) (c : Conversation) (now : Nat)
    (so : SaveOutcome) :
    ((saveConversation s c now so).2).conversations
      = saveReplace s.conversations { c with updatedAt := now } := by
  cases so with
  | res succ err => cases succ <;> rfl
  | thrown m => rfl

theorem storeInv_save {s : ConvState} {c : Conversation} {now : Nat} {so : SaveOutcome}
    (hs : StoreInv s) (hc : ConvInv c) :
    StoreInv ((saveConversation s c now so).2) := by
  intro x hx
  rw [saveConversation_conversations] at hx
  rcases mem_saveReplace hx with h | h
  · rw [h]; exact hc
  · exact hs x h

theorem convInv_empty (nc : Conversation) (hmsg : nc.messages = [])
    (htot : nc.metadata.totalTokens = 0) : ConvInv nc := by
  constructor <;> simp [hmsg, htot]

theorem convStep_inv {s : ConvState} {op : COp} (hs : StoreInv s)
    (hf : freshOk s op = true) : StoreInv (convStep s op) := by
  cases op with
  | create title curModel newId now so =>
      simp only [convStep, createConversation]
      apply storeInv_save
      · intro x hx
        simp only [List.mem_append, List.mem_singleton] at hx
        rcases hx with h | h
        · exact hs x h
        · rw [h]; exact convInv_empty _ rfl rfl
      · exact convInv_empty _ rfl rfl
  | add content role md curModel newMid now so =>
      cases hact : getActiveConversation s with
      | none =>
          simp only [convStep, addMessage, hact]
          exact hs
      | some c =>
          simp only [convStep, addMessage, hact]
          have hmem : c ∈ s.conversations :=
            List.mem_of_find?_eq_some hact
          obtain ⟨hnd, hsum⟩ := hs c hmem
          have hfresh : newMid ∉ c.messages.map (·.id) := by
            simp only [freshOk, hact] at hf
            simp only [Bool.not_eq_true', List.any_eq_false] at hf
            intro hcon
            obtain ⟨m, hm, hmid⟩ := List.mem_map.mp hcon
            have := hf m hm
            simp [hmid] at this
          apply storeInv_save hs
          constructor
          · simp only [List.map_append, List.map_cons, List.map_nil]
            rw [List.nodup_append]
            refine ⟨hnd, List.nodup_singleton _, ?_⟩
            intro a ha
            simp only [List.mem_singleton]
            intro hcon
            rw [hcon] at ha
            exact hfresh ha
          · simp only [List.map_append, List.sum_append, List.map_cons, List.map_nil,
              List.sum_cons, List.sum_nil]
            rw [hsum]
            omega
  | update mid u now so =>
      cases hact : getActiveConversation s with
      | none =>
          simp only [convStep, updateMessage, hact]
          exact hs
      | some c =>
          cases hupd : updAt c.messages mid u with
          | none =>
              simp only [convStep, updateMessage, hact, hupd]
              exact hs
          | some p =>
              simp only [convStep, updateMessage, hact, hupd]
              have hmem : c ∈ s.conversations := List.mem_of_find?_eq_some hact
              obtain ⟨hnd, hsum⟩ := hs c hmem
              apply storeInv_save hs
              constructor
              · rw [updAt_ids hupd]; exact hnd
              · rw [updAt_sum hupd, hsum]
  | delete mid now so =>
      cases hact : getActiveConversation s with
      | none =>
          simp only [convStep, deleteMessage, hact]
          exact hs
      | some c =>
          cases hfind : c.messages.find? (fun m => m.id == mid) with
          | none =>
              simp only [convStep, deleteMessage, hact, hfind]
              exact hs
          | some m =>
              simp only [convStep, deleteMessage, hact, hfind]
              have hmem : c ∈ s.conversations := List.mem_of_find?_eq_some hact
              obtain ⟨hnd, hsum⟩ := hs c hmem
              apply storeInv_save hs
              constructor
              · exact delete_nodup hnd mid
              · rw [delete_sum hnd hfind, hsum]

theorem convRun_inv {s : ConvState} {l : List COp} (hs : StoreInv s)
    (hwf : stepsWF s l = true) : StoreInv (convRun s l) := by
  induction l generalizing s with
  | nil => exact hs
  | cons op rest ih =>
      simp only [stepsWF, Bool.and_eq_true] at hwf
      exact ih (convStep_inv hs hwf.1) hwf.2

theorem saveConversation_activeId (s : ConvState) (c : Conversation) (now : Nat)
    (so : SaveOutcome) :
    ((saveConversation s c now so).2).activeConversationId = s.activeConversationId := by
  cases so with
  | res succ err => cases succ <;> rfl
  | thrown m => rfl

theorem getActive_save {s : ConvState} {c c2 : Conversation} {now : Nat}
    {so : SaveOutcome} (hact : getActiveConversation s = some c) (hid : c2.id = c.id) :
    getActiveConversation ((saveConversation s c2 now so).2)
      = some { c2 with updatedAt := now } := by
  unfold getActiveConversation getConversationById
  rw [saveConversation_activeId, saveConversation_conversations]
  exact find?_saveReplace hid hact

/-- C1: starting from a well-formed store (message ids distinct, and every
conversation's `metadata.totalTokens` equal to the sum of its messages'
`metadata.tokens`), any sequence of `createConversation` / `addMessage` /
`updateMessage` / `deleteMessage` calls whose fresh uuids do not collide
keeps `metadata.totalTokens` equal to the sum of the message token counts in
every conversation of the store.  Since the hypotheses also hold for every
prefix of the sequence, the invariant holds after each operation. -/
theorem claim_C1_totalTokens_invariant (s : ConvState) (l : List COp)
    (hInv : StoreInv s) (hwf : stepsWF s l = true) :
    ∀ c ∈ (convRun s l).conversations,
      c.metadata.totalTokens = (c.messages.map (·.metadata.tokens)).sum :=
  fun c hc => ((convRun_inv hInv hwf) c hc).2

theorem claim_C1_totalTokens_invariant_witness :
    StoreInv (ConvState.mk [] "" [] none) ∧
    stepsWF (ConvState.mk [] "" [] none)
      [COp.create none "claude-3-opus-20240229" "c1" 0 (.res true none),
       COp.add "Hello from the user side" Role.user
         (some { tokens := some 5 }) "claude-3-opus-20240229" "m1" 1 (.res true none),
       COp.add "Sure!" Role.assistant
         (some { tokens := some 2 }) "claude-3-opus-20240229" "m2" 2 (.res true none),
       COp.update "m1" { metadata := some { tokens := some 9 } } 3 (.res true none),
       COp.delete "m2" 4 (.res true none)] = true ∧
    ∀ c ∈ (convRun (ConvState.mk [] "" [] none)
      [COp.create none "claude-3-opus-20240229" "c1" 0 (.res true none),
       COp.add "Hello from the user side" Role.user
         (some { tokens := some 5 }) "claude-3-opus-20240229" "m1" 1 (.res true none),
       COp.add "Sure!" Role.assistant
         (some { tokens := some 2 }) "claude-3-opus-20240229" "m2" 2 (.res true none),
       COp.update "m1" { metadata := some { tokens := some 9 } } 3 (.res true none),
       COp.delete "m2" 4 (.res true none)]).conversations,
      c.metadata.totalTokens = (c.messages.map (·.metadata.tokens)).sum :=
  ⟨by decide, by decide, claim_C1_totalTokens_invariant _ _ (by decide) (by decide)⟩

theorem saveReplace_append_fresh {l : List Conversation} {c : Conversation}
    (h : ∀ x ∈ l, x.id ≠ c.id) : saveReplace (l ++ [c]) c = l ++ [c] := by
  induction l with
  | nil => simp [saveReplace]
  | cons y ys ih =>
      have hy : (y.id == c.id) = false := by
        simpa using h y (List.mem_cons_self _ _)
      simp only [List.cons_append, saveReplace, hy, Bool.false_eq_true, if_false,
        List.append_eq]
      rw [ih (fun x hx => h x (List.mem_cons_of_mem _ hx))]

theorem find?_append_fresh {l : List Conversation} {c : Conversation} {aid : String}
    (h : ∀ x ∈ l, x.id ≠ aid) (hc : (c.id == aid) = true) :
    (l ++ [c]).find? (fun x => x.id == aid) = some c := by
  rw [List.find?_append]
  have hnone : l.find? (fun x => x.id == aid) = none := by
    rw [List.find?_eq_none]
    intro x hx
    simpa using h x hx
  rw [hnone]
  simp [List.find?_cons, hc]

/-- C7: `createConversation` immediately followed by `getActiveConversation`
returns the just-created conversation (round trip), provided the fresh
`uuidv4()` id does not collide with an existing conversation id. -/
theorem claim_C7_create_then_getActive (s : ConvState) (title : Option String)
    (curModel newId : String) (now : Nat) (so : SaveOutcome)
    (hfresh : ∀ c ∈ s.conversations, c.id ≠ newId) :
    getActiveConversation (createConversation s title curModel newId now so).2
      = some (createConversation s title curModel newId now so).1 := by
  unfold createConversation
  simp only
  unfold getActiveConversation getConversationById
  rw [saveConversation_activeId, saveConversation_conversations]
  simp only
  rw [saveReplace_append_fresh hfresh]
  exact find?_append_fresh hfresh (by simp)

theorem claim_C7_create_then_getActive_witness :
    (∀ c ∈ (ConvState.mk
        [Conversation.mk "c0" "Old" 0 0 [] [] (ConvMeta.mk "m" 0 false)] "c0" [] none).conversations,
      c.id ≠ "c1") ∧
    getActiveConversation (createConversation
        (ConvState.mk [Conversation.mk "c0" "Old" 0 0 [] [] (ConvMeta.mk "m" 0 false)] "c0" [] none)
        none "claude-3-opus-20240229" "c1" 7 (.res true none)).2
      = some (createConversation
        (ConvState.mk [Conversation.mk "c0" "Old" 0 0 [] [] (ConvMeta.mk "m" 0 false)] "c0" [] none)
        none "claude-3-opus-20240229" "c1" 7 (.res true none)).1 :=
  ⟨by decide, claim_C7_create_then_getActive _ _ _ _ _ _ (by decide)⟩

/-- C6: a second `deleteMessage` on an id that the first call already removed
(or that was never present) returns `false` and leaves the conversation list
— in particular every `messages` array and every `metadata.totalTokens` —
exactly as the first call left it; the not-found branch only sets the error
string. -/
theorem claim_C6_deleteMessage_idempotent (s : ConvState) (mid : String)
    (now1 now2 : Nat) (so1 so2 : SaveOutcome) :
    (deleteMessage (deleteMessage s mid now1 so1).2 mid now2 so2).1 = false ∧
    (deleteMessage (deleteMessage s mid now1 so1).2 mid now2 so2).2.conversations
      = (deleteMessage s mid now1 so1).2.conversations := by
  cases hact : getActiveConversation s with
  | none =>
      have hs1 : (deleteMessage s mid now1 so1).2
          = { s with error := some "No active conversation" } := by
        simp [deleteMessage, hact]
      have hact1 : getActiveConversation (deleteMessage s mid now1 so1).2 = none := by
        rw [hs1]
        simpa [getActiveConversation, getConversationById] using hact
      rw [hs1] at hact1 ⊢
      simp [deleteMessage, hact1]
  | some c =>
      cases hfind : c.messages.find? (fun m => m.id == mid) with
      | none =>
          have hs1 : (deleteMessage s mid now1 so1).2
              = { s with error := some "Message not found" } := by
            simp [deleteMessage, hact, hfind]
          have hact1 : getActiveConversation (deleteMessage s mid now1 so1).2 = some c := by
            rw [hs1]
            simpa [getActiveConversation, getConversationById] using hact
          rw [hs1] at hact1 ⊢
          simp [deleteMessage, hact1, hfind]
      | some m =>
          have hs1 : (deleteMessage s mid now1 so1).2
              = (saveConversation s
                  { c with
                    messages := c.messages.filter (fun x => !(x.id == mid)),
                    updatedAt := now1,
                    metadata := { c.metadata with
                      totalTokens := c.metadata.totalTokens - m.metadata.tokens } }
                  now1 so1).2 := by
            simp [deleteMessage, hact, hfind]
          have hact1 := @getActive_save s c
            { c with
              messages := c.messages.filter (fun x => !(x.id == mid)),
              updatedAt := now1,
              metadata := { c.metadata with
                totalTokens := c.metadata.totalTokens - m.metadata.tokens } }
            now1 so1 hact rfl
          rw [hs1]
          have hfind1 : ({ c with
              messages := c.messages.filter (fun x => !(x.id == mid)),
              updatedAt := now1,
              metadata := { c.metadata with
                totalTokens := c.metadata.totalTokens - m.metadata.tokens } } :
                Conversation).messages.find? (fun x => x.id == mid) = none :=
            find?_filter_not c.messages mid
          simp [deleteMessage, hact1, hfind1]

theorem updAt_of_find? {msgs : List Message} {mid : String} {m : Message}
    (u : MsgUpdate) (h : msgs.find? (fun x => x.id == mid) = some m) :
    ∃ msgs2, updAt msgs mid u = some (msgs2, tokenDiff m u) ∧
      msgs2.find? (fun x => x.id == mid) = some (mergeMsg m u) := by
  induction msgs with
  | nil => simp [List.find?] at h
  | cons y ys ih =>
      by_cases hy : (y.id == mid) = true
      · have heq : y = m := by
          simp only [List.find?_cons, hy] at h
          exact Option.some.inj h
        subst heq
        refine ⟨mergeMsg y u :: ys, by simp [updAt, hy], ?_⟩
        have hm : ((mergeMsg y u).id == mid) = true := by rw [mergeMsg_id]; exact hy
        simp [List.find?_cons, hm]
      · simp only [Bool.not_eq_true] at hy
        simp only [List.find?_cons, hy] at h
        obtain ⟨ms2, h1, h2⟩ := ih h
        refine ⟨y :: ms2, ?_, ?_⟩
        · simp [updAt, hy, h1]
        · simp [List.find?_cons, hy, h2]

theorem mergeMsg_meta_frame (m : Message) (u : MsgUpdate) :
    (u.metadata.bind (·.tokens) = none →
      (mergeMsg m u).metadata.tokens = m.metadata.tokens) ∧
    (u.metadata.bind (·.model) = none →
      (mergeMsg m u).metadata.model = m.metadata.model) ∧
    (u.metadata.bind (·.renderOptions) = none →
      (mergeMsg m u).metadata.renderOptions = m.metadata.renderOptions) := by
  cases hu : u.metadata with
  | none => simp [mergeMsg, applyMeta, hu]
  | some mu =>
      refine ⟨?_, ?_, ?_⟩
      · intro h
        simp only [hu, Option.some_bind] at h
        simp [mergeMsg, applyMeta, hu, h]
      · intro h
        simp only [hu, Option.some_bind] at h
        simp [mergeMsg, applyMeta, hu, h]
      · intro h
        simp only [hu, Option.some_bind] at h
        simp [mergeMsg, applyMeta, hu, h]

/-- C8: after `updateMessage`, the stored message keeps its original id even
when the update object carries a different one, and every metadata field the
update does not name keeps its previous value. -/
theorem claim_C8_updateMessage_frame (s : ConvState) (mid : String) (u : MsgUpdate)
    (now : Nat) (so : SaveOutcome) (c : Conversation) (m : Message)
    (hact : getActiveConversation s = some c)
    (hfind : c.messages.find? (fun x => x.id == mid) = some m) :
    ∃ c2 m2, getActiveConversation (updateMessage s mid u now so).2 = some c2 ∧
      c2.messages.find? (fun x => x.id == mid) = some m2 ∧
      m2.id = m.id ∧
      (u.metadata.bind (·.tokens) = none →
        m2.metadata.tokens = m.metadata.tokens) ∧
      (u.metadata.bind (·.model) = none →
        m2.metadata.model = m.metadata.model) ∧
      (u.metadata.bind (·.renderOptions) = none →
        m2.metadata.renderOptions = m.metadata.renderOptions) := by
  obtain ⟨msgs2, hupd, hfind2⟩ := updAt_of_find? u hfind
  have hstate : (updateMessage s mid u now so).2
      = (saveConversation s
          { c with
            messages := msgs2, updatedAt := now,
            metadata := { c.metadata with
              totalTokens := c.metadata.totalTokens + tokenDiff m u } }
          now so).2 := by
    simp [updateMessage, hact, hupd]
  refine ⟨{ c with
      messages := msgs2, updatedAt := now,
      metadata := { c.metadata with
        totalTokens := c.metadata.totalTokens + tokenDiff m u } },
    mergeMsg m u, ?_, ?_, mergeMsg_id m u, (mergeMsg_meta_frame m u).1,
    (mergeMsg_meta_frame m u).2.1, (mergeMsg_meta_frame m u).2.2⟩
  · rw [hstate]
    exact getActive_save hact rfl
  · exact hfind2

theorem claim_C8_updateMessage_frame_witness :
    getActiveConversation c8State = some c8Conv ∧
    c8Conv.messages.find? (fun x => x.id == "m1") = some c8Msg ∧
    (∃ c2 m2,
      getActiveConversation (updateMessage c8State "m1" c8Upd 5 (.res true none)).2
        = some c2 ∧
      c2.messages.find? (fun x => x.id == "m1") = some m2 ∧
      m2.id = c8Msg.id ∧
      (c8Upd.metadata.bind (·.tokens) = none →
        m2.metadata.tokens = c8Msg.metadata.tokens) ∧
      (c8Upd.metadata.bind (·.model) = none →
        m2.metadata.model = c8Msg.metadata.model) ∧
      (c8Upd.metadata.bind (·.renderOptions) = none →
        m2.metadata.renderOptions = c8Msg.metadata.renderOptions)) :=
  ⟨by decide, by decide,
    claim_C8_updateMessage_frame c8State "m1" c8Upd 5 (.res true none) c8Conv c8Msg
      (by decide) (by decide)⟩

/-- C9: when `addMessage` is called with the metadata argument omitted or
with no `tokens` and no `model` field in it, the created message carries
`tokens = 0` and the current request parameters' model, and the active
conversation's `metadata.totalTokens` is unchanged by the append. -/
theorem claim_C9_addMessage_defaults (s : ConvState) (content : String) (role : Role)
    (md : Option MsgMetaArg) (curModel newMid : String) (now : Nat) (so : SaveOutcome)
    (c : Conversation) (hact : getActiveConversation s = some c)
    (htok : md.bind (·.tokens) = none) (hmodel : md.bind (·.model) = none) :
    ∃ msg, (addMessage s content role md curModel newMid now so).1 = some msg ∧
      msg.metadata.tokens = 0 ∧
      msg.metadata.model = some curModel ∧
      ∃ c2, getActiveConversation (addMessage s content role md curModel newMid now so).2
          = some c2 ∧
        c2.metadata.totalTokens = c.metadata.totalTokens := by
  simp only [addMessage, hact]
  refine ⟨_, rfl, ?_, ?_, ?_⟩
  · simp [htok, jsOrInt]
  · simp [hmodel, jsOrStr]
  · refine ⟨_, getActive_save hact rfl, ?_⟩
    simp [htok, jsOrInt]

theorem claim_C9_addMessage_defaults_witness :
    getActiveConversation c9State = some c9Conv ∧
    (∃ msg, (addMessage c9State "hello" Role.user none
        "claude-3-opus-20240229" "m9" 4 (.res true none)).1 = some msg ∧
      msg.metadata.tokens = 0 ∧
      msg.metadata.model = some "claude-3-opus-20240229" ∧
      ∃ c2, getActiveConversation (addMessage c9State "hello" Role.user none
          "claude-3-opus-20240229" "m9" 4 (.res true none)).2 = some c2 ∧
        c2.metadata.totalTokens = c9Conv.metadata.totalTokens) :=
  ⟨by decide,
    claim_C9_addMessage_defaults c9State "hello" Role.user none
      "claude-3-opus-20240229" "m9" 4 (.res true none) c9Conv
      (by decide) (by decide) (by decide)⟩

theorem daysInMonth_pos (y m : Nat) : 0 < daysInMonth y m := by
  unfold daysInMonth
  split
  · split <;> omega
  · split <;> omega

theorem saveUsageStats_costEstimate (s : UsageState) (so : SaveOutcome) :
    (saveUsageStats s so).costEstimate = s.costEstimate := by
  cases so <;> rfl

theorem recordUsage_history (s : UsageState) (p c : Int) (model : String)
    (today : CalDate) (so : SaveOutcome) :
    (recordUsage s p c model today so).usageHistory
      = s.usageHistory ++
        [{ date := today, model := model, promptTokens := p,
           completionTokens := c, cost := recordCost p c model }] := by
  unfold recordUsage saveUsageStats updateCostEstimates
  cases so with
  | res succ err => rfl
  | thrown msg => rfl

/-- C2 counterexample: one record of cost 30 on 2024-05-10 (2M prompt tokens
at the opus rate), recorded into an empty ledger.  The stored monthly
projection is (30 / 10) * 31 = 93, while the spec's trailing-7-day-average
formula gives (30 / 1) * 30 = 900. -/
theorem claim_C2_projection_counterexample :
    (recordUsage usageReset 2000000 0 "claude-3-opus-20240229"
        (CalDate.mk 2024 5 10) (.res true none)).costEstimate.monthlyProjection = 93 ∧
    specMonthlyProjection
      (recordUsage usageReset 2000000 0 "claude-3-opus-20240229"
        (CalDate.mk 2024 5 10) (.res true none)).usageHistory
      (CalDate.mk 2024 5 10) = 900 ∧
    (recordUsage usageReset 2000000 0 "claude-3-opus-20240229"
        (CalDate.mk 2024 5 10) (.res true none)).costEstimate.monthlyProjection ≠
      specMonthlyProjection
        (recordUsage usageReset 2000000 0 "claude-3-opus-20240229"
          (CalDate.mk 2024 5 10) (.res true none)).usageHistory
        (CalDate.mk 2024 5 10) := by
  refine ⟨?_, ?_, ?_⟩ <;>
    norm_num [recordUsage, recordCost, modelRates, usageReset, emptySummary,
      updateCostEstimates, saveUsageStats, calculatePreviousMonthCost, calLE,
      daysInMonth, isLeap, List.lookup, upsertModelUsage, upsertDailyUsage,
      specMonthlyProjection, trailingDays, prevDay]

/-- C2 amended: after `recordUsage`, the stored monthly projection equals the
current month's accumulated cost (previous total plus the new record's cost)
divided by the days elapsed in the month (`min(getDate(), daysInMonth)`,
always at least 1) and multiplied by the number of days in the month — a
current-month extrapolation, not a trailing-7-day average. -/
theorem claim_C2_amended_projection (s : UsageState) (p c : Int) (model : String)
    (today : CalDate) (so : SaveOutcome) (h : 1 ≤ today.day) :
    (recordUsage s p c model today so).costEstimate.monthlyProjection
      = (s.currentMonthUsage.totalCost + recordCost p c model)
          / ((min today.day (daysInMonth today.year today.month) : Nat) : Rat)
          * ((daysInMonth today.year today.month : Nat) : Rat) := by
  unfold recordUsage
  simp only [saveUsageStats_costEstimate]
  unfold updateCostEstimates
  simp only
  rw [if_pos (lt_min_iff.mpr ⟨h, daysInMonth_pos today.year today.month⟩)]

theorem claim_C2_amended_projection_witness :
    1 ≤ (CalDate.mk 2024 5 10).day ∧
    (recordUsage usageReset 2000000 0 "claude-3-opus-20240229"
        (CalDate.mk 2024 5 10) (.res true none)).costEstimate.monthlyProjection
      = (usageReset.currentMonthUsage.totalCost
            + recordCost 2000000 0 "claude-3-opus-20240229")
          / ((min (CalDate.mk 2024 5 10).day (daysInMonth 2024 5) : Nat) : Rat)
          * ((daysInMonth 2024 5 : Nat) : Rat) :=
  ⟨by decide,
    claim_C2_amended_projection usageReset 2000000 0 "claude-3-opus-20240229"
      (CalDate.mk 2024 5 10) (.res true none) (by decide)⟩

/-- C5: recording 1M prompt and 1M completion tokens for
`claude-3-opus-20240229` on an empty ledger yields a single record of cost
15 + 75 = 90, reflected by an unfiltered `getUsageSummary`; and for a model
name absent from the price table the cost falls back to the default rates
(the opus row, 15 / 75 per 1M tokens). -/
theorem claim_C5_opus_pricing :
    ((recordUsage usageReset 1000000 1000000 "claude-3-opus-20240229"
        (CalDate.mk 2024 5 10) (.res true none)).usageHistory
      = [{ date := CalDate.mk 2024 5 10, model := "claude-3-opus-20240229",
           promptTokens := 1000000, completionTokens := 1000000, cost := 90 }] ∧
     (getUsageSummary (recordUsage usageReset 1000000 1000000 "claude-3-opus-20240229"
        (CalDate.mk 2024 5 10) (.res true none)) none none none).totalCost = 90 ∧
     (getUsageSummary (recordUsage usageReset 1000000 1000000 "claude-3-opus-20240229"
        (CalDate.mk 2024 5 10) (.res true none)) none none none).totalPromptTokens
       = 1000000 ∧
     (getUsageSummary (recordUsage usageReset 1000000 1000000 "claude-3-opus-20240229"
        (CalDate.mk 2024 5 10) (.res true none)) none none none).totalCompletionTokens
       = 1000000) ∧
    (∀ (s : UsageState) (m : String) (p c : Int) (d : CalDate) (so : SaveOutcome),
      modelRates.lookup m = none →
      (recordUsage s p c m d so).usageHistory.getLast?
        = some { date := d, model := m, promptTokens := p, completionTokens := c,
                 cost := (p : Rat) / 1000000 * 15 + (c : Rat) / 1000000 * 75 }) := by
  constructor
  · refine ⟨?_, ?_, ?_, ?_⟩ <;>
      norm_num [recordUsage, recordCost, modelRates, usageReset, emptySummary,
        updateCostEstimates, saveUsageStats, calculatePreviousMonthCost, calLE,
        daysInMonth, isLeap, List.lookup, upsertModelUsage, upsertDailyUsage,
        getUsageSummary]
  · intro s m p c d so hm
    rw [recordUsage_history, List.getLast?_concat]
    have hcost : recordCost p c m
        = (p : Rat) / 1000000 * 15 + (c : Rat) / 1000000 * 75 := by
      unfold recordCost
      rw [hm]
      norm_num [modelRates, List.lookup]
    rw [hcost]

theorem claim_C5_opus_pricing_witness :
    modelRates.lookup "gpt-4o" = none ∧
    (recordUsage usageReset 2000000 1000000 "gpt-4o"
        (CalDate.mk 2024 5 10) (.res true none)).usageHistory.getLast?
      = some { date := CalDate.mk 2024 5 10, model := "gpt-4o",
               promptTokens := 2000000, completionTokens := 1000000,
               cost := ((2000000 : Int) : Rat) / 1000000 * 15
                 + ((1000000 : Int) : Rat) / 1000000 * 75 } :=
  ⟨by decide,
    claim_C5_opus_pricing.2 usageReset "gpt-4o" 2000000 1000000
      (CalDate.mk 2024 5 10) (.res true none) (by decide)⟩

/-- C4: for every input and every collaborator outcome (missing key, thrown
`await`, failed result, malformed reply), `sendPrompt` either returns a
normalized response (leaving the error field clear) or returns `null` with a
non-null error message stored in the model's error field.  The embedding is a
total function: the source's outer `try/catch` converts every collaborator
exception into this convention, so nothing escapes to the caller. -/
theorem claim_C4_sendPrompt_null_or_error (s : APIState) (prompt : String)
    (params : Option APIParamsPartial) (keyOut : KeyOutcome) (sendOut : SendOutcome) :
    (∃ resp, (sendPrompt s prompt params keyOut sendOut).1 = some resp ∧
      (sendPrompt s prompt params keyOut sendOut).2.1.error = none) ∨
    ((sendPrompt s prompt params keyOut sendOut).1 = none ∧
      ∃ msg, (sendPrompt s prompt params keyOut sendOut).2.1.error = some msg) := by
  unfold sendPrompt
  cases keyOut with
  | thrown m => right; exact ⟨rfl, _, rfl⟩
  | ok key =>
      cases key with
      | none => right; exact ⟨rfl, _, rfl⟩
      | some k =>
        by_cases hk : k = ""
        · subst hk
          right
          exact ⟨rfl, _, rfl⟩
        · simp only [Option.getD_some]
          rw [if_neg hk]
          cases sendOut with
          | thrown m => right; exact ⟨rfl, _, rfl⟩
          | res success err data =>
              cases success with
              | false => right; exact ⟨rfl, _, rfl⟩
              | true =>
                  cases data with
                  | none => right; exact ⟨rfl, _, rfl⟩
                  | some r =>
                      obtain ⟨rid, rtype, rcontent, rmodel, rsr, rss, rusage⟩ := r
                      cases rcontent with
                      | none => right; exact ⟨rfl, _, rfl⟩
                      | some cs =>
                          cases cs with
                          | nil =>
                              cases rusage with
                              | none => right; exact ⟨rfl, _, rfl⟩
                              | some u => right; exact ⟨rfl, _, rfl⟩
                          | cons c0 rest =>
                              cases rusage with
                              | none => right; exact ⟨rfl, _, rfl⟩
                              | some u => left; exact ⟨_, rfl, rfl⟩

/-- C10: when the underlying storage delete reports failure or throws,
`deleteProfile` returns `false` and leaves the profile list, the active
profile id and the `isAuthenticated` flag exactly as they were (only the
error string is set). -/
theorem claim_C10_deleteProfile_failure_frame (s : AuthState) (pid : String)
    (out1 out2 : SaveOutcome) (h : isSuccess out1 = false) :
    (deleteProfile s pid out1 out2).1 = false ∧
    (deleteProfile s pid out1 out2).2.authProfiles = s.authProfiles ∧
    (deleteProfile s pid out1 out2).2.activeProfileId = s.activeProfileId ∧
    (deleteProfile s pid out1 out2).2.isAuthenticated = s.isAuthenticated := by
  cases out1 with
  | thrown m => exact ⟨rfl, rfl, rfl, rfl⟩
  | res succ err =>
      cases succ with
      | false => exact ⟨rfl, rfl, rfl, rfl⟩
      | true => simp [isSuccess] at h

theorem claim_C10_deleteProfile_failure_frame_witness :
    isSuccess (SaveOutcome.res false (some "disk full")) = false ∧
    ((deleteProfile
        (AuthState.mk true false [AuthProfile.mk "p1" "Default" "abcd" 0 0] "p1" none)
        "p1" (SaveOutcome.res false (some "disk full")) (SaveOutcome.res true none)).1
      = false ∧
     (deleteProfile
        (AuthState.mk true false [AuthProfile.mk "p1" "Default" "abcd" 0 0] "p1" none)
        "p1" (SaveOutcome.res false (some "disk full")) (SaveOutcome.res true none)).2.authProfiles
      = (AuthState.mk true false [AuthProfile.mk "p1" "Default" "abcd" 0 0] "p1" none).authProfiles ∧
     (deleteProfile
        (AuthState.mk true false [AuthProfile.mk "p1" "Default" "abcd" 0 0] "p1" none)
        "p1" (SaveOutcome.res false (some "disk full")) (SaveOutcome.res true none)).2.activeProfileId
      = (AuthState.mk true false [AuthProfile.mk "p1" "Default" "abcd" 0 0] "p1" none).activeProfileId ∧
     (deleteProfile
        (AuthState.mk true false [AuthProfile.mk "p1" "Default" "abcd" 0 0] "p1" none)
        "p1" (SaveOutcome.res false (some "disk full")) (SaveOutcome.res true none)).2.isAuthenticated
      = (AuthState.mk true false [AuthProfile.mk "p1" "Default" "abcd" 0 0] "p1" none).isAuthenticated) :=
  ⟨by decide,
    claim_C10_deleteProfile_failure_frame
      (AuthState.mk true false [AuthProfile.mk "p1" "Default" "abcd" 0 0] "p1" none)
      "p1" (SaveOutcome.res false (some "disk full")) (SaveOutcome.res true none)
      (by decide)⟩

/-- C3 counterexample: in the renderer orchestration path
(`PromptView.handleSubmit`) a failed dispatcher send surfaces the error to
the UI (toast and `apiStore.error`) but appends NO `system`-role message to
the active conversation: the transcript ends with the lone user message. -/
theorem claim_C3_counterexample :
    (sendPrompt c3Root.api "Hello" none c3Ctx.keyOut c3Ctx.sendOut).1 = none ∧
    (handleSubmit c3Root "Hello" c3Ctx).2
      = [{ title := "API Error", description := "rate limited", status := "error" }] ∧
    (handleSubmit c3Root "Hello" c3Ctx).1.api.error = some "rate limited" ∧
    ((getActiveConversation (handleSubmit c3Root "Hello" c3Ctx).1.conv).map
      (fun c => (c.messages.filter (fun m => m.role == Role.system)).length))
      = some 0 ∧
    ((getActiveConversation (handleSubmit c3Root "Hello" c3Ctx).1.conv).map
      (fun c => c.messages.length)) = some 1 := by
  refine ⟨by decide, by decide, by decide, by decide, by decide⟩

theorem i1Replace_find? {l : List Conversation} {c c2 : Conversation}
    {aid : String} (hid : c2.id = c.id)
    (h : l.find? (fun x => x.id == aid) = some c) :
    ∃ l2, i1Replace l c2 = some l2 ∧
      l2.find? (fun x => x.id == aid) = some c2 := by
  induction l with
  | nil => simp [List.find?] at h
  | cons y ys ih =>
      by_cases hy : (y.id == aid) = true
      · have hc : y = c := by
          simp only [List.find?_cons, hy] at h
          exact Option.some.inj h
        have hcc : (y.id == c2.id) = true := by rw [hid, ← hc]; simp
        have hc2 : (c2.id == aid) = true := by rw [hid, ← hc]; exact hy
        exact ⟨c2 :: ys, by simp [i1Replace, hcc], by simp [List.find?_cons, hc2]⟩
      · simp only [Bool.not_eq_true] at hy
        simp only [List.find?_cons, hy] at h
        have hcaid := List.find?_some h
        have hne : (y.id == c2.id) = false := by
          rw [hid]
          by_contra hcon
          simp only [Bool.not_eq_false, beq_iff_eq] at hcon
          rw [hcon] at hy
          simp [hcaid] at hy
        obtain ⟨l2, h1, h2⟩ := ih h
        refine ⟨y :: l2, ?_, ?_⟩
        · simp [i1Replace, hne, h1]
        · simp [List.find?_cons, hy, h2]

theorem i1AddMessage_spec {s : I1State} {c : Conversation}
    (hact : i1Active s = some c) (role : Role) (content : String) (md : MsgMeta)
    (newMid : String) (now : Nat) :
    (i1AddMessage s role content md newMid now).1
      = some (Message.mk newMid role content now md) ∧
    ∃ c2, i1Active (i1AddMessage s role content md newMid now).2 = some c2 ∧
      c2.messages = c.messages ++ [Message.mk newMid role content now md] := by
  unfold i1Active at hact
  cases haid : s.activeConversationId with
  | none => simp [haid] at hact
  | some aid =>
      simp only [haid] at hact
      by_cases hae : aid = ""
      · rw [if_pos hae] at hact; simp at hact
      · rw [if_neg hae] at hact
        have hmain : i1Active s = some c := by
          unfold i1Active
          simp only [haid]
          rw [if_neg hae]
          exact hact
        refine ⟨by simp [i1AddMessage, hmain], ?_⟩
        obtain ⟨l2, hrep, hfind⟩ := @i1Replace_find? s.conversations c
          { c with
            messages := c.messages ++ [Message.mk newMid role content now md],
            updatedAt := now,
            metadata := { c.metadata with
              totalTokens := c.metadata.totalTokens + md.tokens,
              model := jsOrStr md.model c.metadata.model } }
          aid rfl hact
        refine ⟨{ c with
            messages := c.messages ++ [Message.mk newMid role content now md],
            updatedAt := now,
            metadata := { c.metadata with
              totalTokens := c.metadata.totalTokens + md.tokens,
              model := jsOrStr md.model c.metadata.model } }, ?_, rfl⟩
        simp only [i1AddMessage, hmain, i1UpdateConversation]
        rw [hrep]
        unfold i1Active
        simp only [haid]
        rw [if_neg hae]
        exact hfind

/-- C3 amended (controller path): in `ConversationController.submitPrompt`,
when the dispatcher returns `null`, the catch block sets the controller
error to `Error: No response from Claude API` and appends a `system`-role
message carrying the same text to the active conversation. -/
theorem claim_C3_amended_controller_error (s : CCState) (promptText : String)
    (cfg : ApiConfig) (userMid asstMid errMid : String) (now : Nat)
    (hprompt : ¬(jsTrim promptText = "")) (c : Conversation)
    (hact : i1Active s.conv = some c) :
    (ccSubmitPrompt s promptText cfg none userMid asstMid errMid now).1.error
      = some "Error: No response from Claude API" ∧
    ∃ c2, i1Active
        (ccSubmitPrompt s promptText cfg none userMid asstMid errMid now).1.conv
        = some c2 ∧
      c2.messages.getLast? = some (Message.mk errMid Role.system
        "Error: No response from Claude API" now (MsgMeta.mk 0 none [])) := by
  obtain ⟨hres1, c1, hact1, hmsgs1⟩ := i1AddMessage_spec hact Role.user promptText
    (MsgMeta.mk (estimateTokenCount promptText) (some cfg.defaultModel) []) userMid now
  have hstate : ccSubmitPrompt s promptText cfg none userMid asstMid errMid now
      = (ccCatch
          { conv := (i1AddMessage s.conv Role.user promptText
              (MsgMeta.mk (estimateTokenCount promptText) (some cfg.defaultModel) [])
              userMid now).2,
            isLoading := true, error := none }
          "No response from Claude API" errMid now, []) := by
    unfold ccSubmitPrompt
    rw [if_neg hprompt]
    simp only [hres1]
  rw [hstate]
  obtain ⟨hres2, c2, hact2, hmsgs2⟩ := i1AddMessage_spec hact1 Role.system
    ("Error: " ++ "No response from Claude API") (MsgMeta.mk 0 none []) errMid now
  constructor
  · rfl
  · refine ⟨c2, ?_, ?_⟩
    · show i1Active (ccCatch _ "No response from Claude API" errMid now).conv = some c2
      unfold ccCatch
      simp only
      rw [hact1]
      exact hact2
    · rw [hmsgs2, List.getLast?_concat]
      rfl

theorem claim_C3_amended_controller_error_witness :
    ¬(jsTrim "Hello" = "") ∧
    i1Active c3CC.conv = some c3CConv ∧
    ((ccSubmitPrompt c3CC "Hello" c3Cfg none "mU" "mA" "mE" 3).1.error
      = some "Error: No response from Claude API" ∧
    ∃ c2, i1Active (ccSubmitPrompt c3CC "Hello" c3Cfg none "mU" "mA" "mE" 3).1.conv
        = some c2 ∧
      c2.messages.getLast? = some (Message.mk "mE" Role.system
        "Error: No response from Claude API" 3 (MsgMeta.mk 0 none []))) :=
  ⟨by decide, by decide,
    claim_C3_amended_controller_error c3CC "Hello" c3Cfg "mU" "mA" "mE" 3
      (by decide) c3CConv (by decide)⟩
